import Mathlib

/-!
Verification of the Nifty-Tournament paper-trading core.

Shallow embedding of the wallet ledger, position book, order execution
engine, tick-to-candle aggregator and tournament ranking engine from
`backend/app`.  Monetary values and prices are modelled as rationals,
quantities as integers, Python `None`-able numeric attributes as
`Option` values, and Python exceptions as `Except` results.
-/

/-! ## Wallet ledger (`backend/app/models/wallet.py`) -/

/-- Projection of the `Wallet` model onto the field the ledger operations
touch: the virtual cash `balance`. -/
structure Wallet where
  balance : ℚ
deriving DecidableEq, Repr

/-- Embedding of `Wallet.can_afford`: `self.balance >= amount`. -/
def Wallet.can_afford (w : Wallet) (amount : ℚ) : Bool :=
  decide (w.balance ≥ amount)

/-- Embedding of `Wallet.deduct`: when `can_afford(amount)` holds the
balance is decreased and `True` is returned, otherwise the wallet is left
unchanged and `False` is returned.  The pair carries the returned Bool
and the wallet after the call. -/
def Wallet.deduct (w : Wallet) (amount : ℚ) : Bool × Wallet :=
  if w.can_afford amount then (true, ⟨w.balance - amount⟩) else (false, w)

/-- Embedding of `Wallet.add`: unconditionally increases the balance. -/
def Wallet.add (w : Wallet) (amount : ℚ) : Wallet :=
  ⟨w.balance + amount⟩

/-- A debit or credit request against one wallet, carrying its amount. -/
inductive WalletOp where
  | debit (amount : ℚ)
  | credit (amount : ℚ)
deriving DecidableEq, Repr

/-- The amount carried by a wallet operation. -/
def WalletOp.amount : WalletOp → ℚ
  | .debit a => a
  | .credit a => a

/-- Applying one wallet operation: a debit goes through `Wallet.deduct`
(dropping the Bool, as the engine does), a credit through `Wallet.add`. -/
def applyWalletOp (w : Wallet) (op : WalletOp) : Wallet :=
  match op with
  | .debit a => (w.deduct a).2
  | .credit a => w.add a

/-- Folding a sequence of debit/credit operations over a wallet. -/
def applyWalletOps (w : Wallet) (ops : List WalletOp) : Wallet :=
  ops.foldl applyWalletOp w

/-! ## Order enums (`backend/app/models/paper_order.py`) -/

/-- Order types supported in paper trading. -/
inductive OrderType where
  | MARKET
  | LIMIT
  | STOP_LOSS
  | STOP_LOSS_MARKET
deriving DecidableEq, Repr

/-- Order side (buy or sell). -/
inductive OrderSide where
  | BUY
  | SELL
deriving DecidableEq, Repr

/-- Order execution status. -/
inductive OrderStatus where
  | PENDING
  | OPEN
  | EXECUTED
  | PARTIALLY_FILLED
  | CANCELLED
  | REJECTED
deriving DecidableEq, Repr

/-- Type of instrument being traded.  The enum has exactly the members
`INDEX`, `OPTION_CE` and `OPTION_PE`; it has no members named `CE` or
`PE`. -/
inductive InstrumentType where
  | INDEX
  | OPTION_CE
  | OPTION_PE
deriving DecidableEq, Repr

/-- A Python exception raised by the embedded code. -/
inductive PyErr where
  | attributeError
deriving DecidableEq, Repr

/-! ## Position book (`backend/app/models/paper_position.py`) -/

/-- Python truthiness of an optional number: `None` and `0` are falsy. -/
def pyTruthy : Option ℚ → Bool
  | none => false
  | some v => decide (v ≠ 0)

/-- Projection of the `PaperPosition` model onto the fields the engine
and the claims touch (identity, exchange and risk-management columns are
not read by any operation modelled here).  `ltp` and `current_price` are
nullable in the schema and so are `Option`; `multiplier` defaults to 1
and is never set by the paper trading engine. -/
structure PaperPosition where
  instrument_type : InstrumentType
  quantity : ℤ
  average_price : ℚ
  ltp : Option ℚ
  current_price : Option ℚ
  realized_pnl : ℚ
  unrealized_pnl : ℚ
  pnl : ℚ
  multiplier : ℤ
  day_change : Option ℚ
  day_change_percentage : Option ℚ
deriving DecidableEq, Repr

/-- Embedding of `PaperPosition.calculate_unrealized_pnl`.  The method
computes `price = self.ltp or self.current_price` and returns `0.0` when
`price` is falsy.  Otherwise it evaluates the list
`[InstrumentType.CE, InstrumentType.PE]` for its membership test; the
`InstrumentType` enum has no members `CE` or `PE` (only `INDEX`,
`OPTION_CE`, `OPTION_PE`), so this attribute access raises
`AttributeError` for every instrument type whenever a truthy price is
available, before either documented P&L formula can be reached. -/
def PaperPosition.calculate_unrealized_pnl (p : PaperPosition) :
    Except PyErr ℚ :=
  let price := if pyTruthy p.ltp then p.ltp else p.current_price
  if pyTruthy price then .error .attributeError else .ok 0

/-- The unrealized P&L formula documented in the docstring of
`calculate_unrealized_pnl` (and in the spec): options are priced as
`(mark - avg) * multiplier * sign(qty)` and index/equity instruments as
`(mark - avg) * qty`.  Stated separately so the behaviour of the code
can be compared against it. -/
def documentedUnrealizedPnl (itype : InstrumentType) (quantity : ℤ)
    (average_price mark : ℚ) (multiplier : ℤ) : ℚ :=
  match itype with
  | .INDEX => (mark - average_price) * (quantity : ℚ)
  | .OPTION_CE => (mark - average_price) * (multiplier : ℚ) *
      (if quantity > 0 then 1 else if quantity < 0 then -1 else 0)
  | .OPTION_PE => (mark - average_price) * (multiplier : ℚ) *
      (if quantity > 0 then 1 else if quantity < 0 then -1 else 0)

/-- Embedding of `PaperPosition.update_current_price`: sets `ltp` and
`current_price` to the new price, recomputes `unrealized_pnl` through
`calculate_unrealized_pnl` (propagating its exception), sets
`pnl = realized_pnl + unrealized_pnl`, and fills the day-change fields
when a positive `yesterday_close` is supplied. -/
def PaperPosition.update_current_price (p : PaperPosition) (new_price : ℚ)
    (yesterday_close : Option ℚ) : Except PyErr PaperPosition :=
  let p1 := { p with ltp := some new_price, current_price := some new_price }
  match p1.calculate_unrealized_pnl with
  | .error e => .error e
  | .ok u =>
    let p2 := { p1 with unrealized_pnl := u, pnl := p1.realized_pnl + u }
    if pyTruthy yesterday_close ∧ 0 < yesterday_close.getD 0 then
      .ok { p2 with
        day_change := some (new_price - yesterday_close.getD 0),
        day_change_percentage :=
          some ((new_price - yesterday_close.getD 0) / yesterday_close.getD 0 * 100) }
    else
      .ok p2

/-! ## Paper trading engine (`backend/app/services/paper_trading_engine.py`) -/

/-- Embedding of the field mutations of
`PaperTradingEngine._update_position` on an existing position (lines
170-193): a BUY accumulates quantity and recomputes the weighted average
cost; a SELL with `position.quantity >= executed_quantity` books realized
P&L `(executed_price - average_price) * executed_quantity` and lowers the
quantity, deleting the position (result `none`) when the quantity reaches
zero; any other SELL takes the reversal branch, which sets
`quantity = -(executed_quantity - old_quantity)` and resets
`average_price` to the execution price. -/
def updatePositionFields (pos : PaperPosition) (side : OrderSide)
    (executed_quantity : ℤ) (executed_price : ℚ) : Option PaperPosition :=
  match side with
  | .BUY =>
    let total_cost := (pos.quantity : ℚ) * pos.average_price +
      (executed_quantity : ℚ) * executed_price
    let new_qty := pos.quantity + executed_quantity
    some { pos with
      quantity := new_qty,
      average_price := if new_qty ≠ 0 then total_cost / (new_qty : ℚ) else 0 }
  | .SELL =>
    if pos.quantity ≥ executed_quantity then
      let realized := (executed_price - pos.average_price) * (executed_quantity : ℚ)
      let reduced := { pos with
        realized_pnl := pos.realized_pnl + realized,
        quantity := pos.quantity - executed_quantity }
      if reduced.quantity = 0 then none else some reduced
    else
      some { pos with
        quantity := -(executed_quantity - pos.quantity),
        average_price := executed_price }

/-- Embedding of `PaperTradingEngine._update_position`.  With no existing
position a new one is created at the execution price (signed by the order
side) and the method returns.  With an existing position the fields are
mutated as in `updatePositionFields`; the early return of the
delete-on-zero branch skips the rest of the method, while every other
branch falls through to line 196, which sets `current_price` and then
calls `calculate_unrealized_pnl`, whose exception aborts the update (and
with it the enclosing transaction, which is never committed). -/
def updatePosition (existing : Option PaperPosition)
    (itype : InstrumentType) (side : OrderSide)
    (executed_quantity : ℤ) (executed_price : ℚ) :
    Except PyErr (Option PaperPosition) :=
  match existing with
  | none =>
    .ok (some {
      instrument_type := itype,
      quantity := if side = .BUY then executed_quantity else -executed_quantity,
      average_price := executed_price,
      ltp := none,
      current_price := some executed_price,
      realized_pnl := 0,
      unrealized_pnl := 0,
      pnl := 0,
      multiplier := 1,
      day_change := none,
      day_change_percentage := none })
  | some pos =>
    match updatePositionFields pos side executed_quantity executed_price with
    | none => .ok none
    | some p1 =>
      let p2 := { p1 with current_price := some executed_price }
      match p2.calculate_unrealized_pnl with
      | .error e => .error e
      | .ok u => .ok (some { p2 with unrealized_pnl := u })

/-! ## Tournament position closing (`backend/app/api/tournaments.py`) -/

/-- An HTTP error raised by an API endpoint. -/
inductive HTTPError where
  | notFound
deriving DecidableEq, Repr

/-- Embedding of the `close_tournament_position` endpoint: a missing
position yields 404; otherwise the position row has its `quantity` set
to 0 and is committed — the row itself is kept. -/
def close_tournament_position (position : Option PaperPosition) :
    Except HTTPError (Option PaperPosition) :=
  match position with
  | none => .error .notFound
  | some p => .ok (some { p with quantity := 0 })

/-! ## Tick-to-candle aggregator (`backend/app/services/candle_builder.py`) -/

/-- Embedding of `CandleData`; the Python attribute `open` is called
`open_price` here.  Timestamps are in milliseconds, as produced by
`_get_candle_timestamp`. -/
structure CandleData where
  timestamp : ℕ
  open_price : ℚ
  high : ℚ
  low : ℚ
  close : ℚ
  volume : ℤ
deriving DecidableEq, Repr

/-- State of a `CandleBuilder` projected onto a single symbol: the
configured timeframe, the in-progress candle for the symbol (if any) and
the last seen tick (price, cumulative volume) for the symbol. -/
structure CandleBuilderState where
  timeframe_seconds : ℕ
  current_candle : Option CandleData
  last_tick : Option (ℚ × ℤ)
deriving DecidableEq, Repr

/-- Embedding of `CandleBuilder._get_candle_timestamp`: the tick
timestamp in whole seconds is floored to the nearest timeframe interval
and converted to milliseconds. -/
def getCandleTimestamp (timeframe_seconds : ℕ) (ts : ℕ) : ℕ :=
  ts / timeframe_seconds * timeframe_seconds * 1000

/-- Embedding of `CandleBuilder.process_tick` for one symbol: computes
the candle timestamp, delta-accounts the cumulative volume (flooring at
0, and 0 when no previous tick is known), records the tick, then either
starts the first candle, completes and replaces the current candle when
the new candle timestamp is strictly greater, or folds the tick into the
current candle (high = max, low = min, close = price, volume += delta).
Returns the completed candle (if any) and the new state. -/
def processTick (s : CandleBuilderState) (price : ℚ) (volume : ℤ)
    (ts : ℕ) : Option CandleData × CandleBuilderState :=
  let candle_ts := getCandleTimestamp s.timeframe_seconds ts
  let volume_delta : ℤ :=
    match s.last_tick with
    | none => 0
    | some lt => max 0 (volume - lt.2)
  let s1 := { s with last_tick := some (price, volume) }
  match s1.current_candle with
  | none =>
    (none, { s1 with current_candle := some ⟨candle_ts, price, price, price, price, volume_delta⟩ })
  | some current =>
    if candle_ts > current.timestamp then
      (some current, { s1 with current_candle := some ⟨candle_ts, price, price, price, price, volume_delta⟩ })
    else
      (none, { s1 with current_candle := some { current with high := max current.high price, low := min current.low price, close := price, volume := current.volume + volume_delta } })

/-- A raw tick: price, cumulative volume and timestamp in seconds. -/
structure Tick where
  price : ℚ
  volume : ℤ
  ts : ℕ
deriving DecidableEq, Repr

/-- Feeding a list of ticks through `processTick`, collecting the
completed candles in order. -/
def processTicks (s : CandleBuilderState) :
    List Tick → List CandleData × CandleBuilderState
  | [] => ([], s)
  | t :: rest =>
    let r := processTick s t.price t.volume t.ts
    let rr := processTicks r.2 rest
    (match r.1 with | some c => c :: rr.1 | none => rr.1, rr.2)

/-- A fresh `CandleBuilder` for the given timeframe: no in-progress
candle and no last tick. -/
def candleBuilderInit (timeframe_seconds : ℕ) : CandleBuilderState :=
  ⟨timeframe_seconds, none, none⟩

/-! ## Order cancellation (`PaperTradingEngine.cancel_order`) -/

/-- Projection of a stored `PaperOrder` row onto the columns
`cancel_order` reads: primary key, owning user and status. -/
structure DBOrder where
  id : ℕ
  user_id : ℕ
  status : OrderStatus
deriving DecidableEq, Repr

/-- The query of `cancel_order`: first stored order whose primary key
and owner both match. -/
def findOrder (orders : List DBOrder) (order_id user_id : ℕ) : Option DBOrder :=
  orders.find? (fun o => decide (o.id = order_id ∧ o.user_id = user_id))

/-- Mutation of the queried row: the first order matching the key and
owner has its status set to CANCELLED, everything else is untouched. -/
def setCancelled (order_id user_id : ℕ) : List DBOrder → List DBOrder
  | [] => []
  | o :: rest =>
    if o.id = order_id ∧ o.user_id = user_id then
      { o with status := .CANCELLED } :: rest
    else
      o :: setCancelled order_id user_id rest

/-- Embedding of `PaperTradingEngine.cancel_order`: returns `False` when
no order matches the id and user, or when the matched order is not
PENDING or OPEN; otherwise sets the status to CANCELLED, commits and
returns `True`.  The pair carries the returned Bool and the order table
after the call. -/
def cancel_order (orders : List DBOrder) (order_id user_id : ℕ) :
    Bool × List DBOrder :=
  match findOrder orders order_id user_id with
  | none => (false, orders)
  | some o =>
    if o.status = .PENDING ∨ o.status = .OPEN then
      (true, setCancelled order_id user_id orders)
    else
      (false, orders)

/-! ## Tournament ranking (`backend/app/services/tournament_service.py`) -/

/-- Projection of a `TournamentParticipant` row onto the columns
`update_rankings` reads: the user, the cumulative `total_pnl` and the
`joined_at` timestamp (modelled in whole seconds). -/
structure Participant where
  user_id : ℕ
  total_pnl : ℚ
  joined_at : ℕ
deriving DecidableEq, Repr

/-- The sort key of `update_rankings`: `ORDER BY total_pnl DESC`. -/
def pnlDescOrder (a b : Participant) : Prop :=
  b.total_pnl ≤ a.total_pnl

instance : DecidableRel pnlDescOrder :=
  fun a b => inferInstanceAs (Decidable (b.total_pnl ≤ a.total_pnl))

instance : IsTotal Participant pnlDescOrder :=
  ⟨fun a b => le_total b.total_pnl a.total_pnl⟩

instance : IsTrans Participant pnlDescOrder :=
  ⟨fun _ _ _ hab hbc => le_trans hbc hab⟩

/-- The participant query of `update_rankings`.  `ORDER BY
total_pnl DESC` constrains only the relative order of distinct P&L
values; rows with equal `total_pnl` come back in an enumeration order
the database does not specify.  The embedding therefore takes the
participant list in whatever enumeration order the database produced
and applies a stable descending sort, which keeps equal-P&L rows in
that unspecified order. -/
def sortByPnlDesc (participants : List Participant) : List Participant :=
  List.insertionSort pnlDescOrder participants

/-- Embedding of `enumerate(participants, start=1)`: ranks are assigned
positionally starting from `rank`. -/
def assignRanksFrom (rank : ℕ) : List Participant → List (ℕ × Participant)
  | [] => []
  | p :: rest => (rank, p) :: assignRanksFrom (rank + 1) rest

/-- Embedding of `TournamentService.update_rankings`: sort all
participants of the tournament descending by `total_pnl` and assign
dense ranks 1..N in that order. -/
def update_rankings (participants : List Participant) :
    List (ℕ × Participant) :=
  assignRanksFrom 1 (sortByPnlDesc participants)

/-! ## Order placement (`PaperTradingEngine.place_order`, `_execute_order`) -/

/-- Projection of the `OrderCreate` request schema onto the fields
`place_order` reads (the schema validates `quantity > 0` and
`price > 0` when present). -/
structure OrderCreate where
  instrument_type : InstrumentType
  order_type : OrderType
  order_side : OrderSide
  quantity : ℤ
  price : Option ℚ
deriving DecidableEq, Repr

/-- Projection of a `PaperOrder` row onto the fields `place_order` and
`_execute_order` write. -/
structure PaperOrderState where
  order_side : OrderSide
  quantity : ℤ
  executed_price : Option ℚ
  executed_quantity : ℤ
  status : OrderStatus
deriving DecidableEq, Repr

/-- A `place_order` failure: the `ValueError`s raised by validation, or
a propagated Python exception from deeper in the call. -/
inductive PlaceOrderErr where
  | priceUnavailable
  | insufficientBalance
  | positionLimitExceeded
  | pyErr (e : PyErr)
deriving DecidableEq, Repr

/-- Embedding of `PaperTradingEngine._calculate_order_value`: the limit
price times quantity for LIMIT orders with a truthy price, otherwise the
current market price times quantity. -/
def calculateOrderValue (od : OrderCreate) (current_price : ℚ) : ℚ :=
  if od.order_type = .LIMIT ∧ pyTruthy od.price then
    od.price.getD 0 * (od.quantity : ℚ)
  else
    current_price * (od.quantity : ℚ)

/-- The state produced by a completed `place_order` call: the order row,
the wallet after the call, the Bool returned by the `Wallet.deduct` call
inside `_execute_order` (which the engine discards; `none` when no
deduct ran, i.e. for SELL or non-MARKET orders), and the position row. -/
structure ExecResult where
  order : PaperOrderState
  wallet : Wallet
  deduct_result : Option Bool
  position : Option PaperPosition
deriving DecidableEq, Repr

/-- Embedding of `PaperTradingEngine._execute_order`: stamps the order
as EXECUTED at the execution price for the full quantity, debits the
wallet by `execution_price * quantity` for a BUY (discarding the Bool,
which is recorded here) or credits it for a SELL, then updates the
position; an exception from the position update aborts the call. -/
def executeOrder (w : Wallet) (existing : Option PaperPosition)
    (itype : InstrumentType) (o : PaperOrderState) (execution_price : ℚ) :
    Except PyErr ExecResult :=
  let o1 := { o with executed_price := some execution_price, executed_quantity := o.quantity, status := OrderStatus.EXECUTED }
  let order_value := execution_price * (o.quantity : ℚ)
  let wres : Option Bool × Wallet :=
    match o.order_side with
    | .BUY => (some (w.deduct order_value).1, (w.deduct order_value).2)
    | .SELL => (none, w.add order_value)
  match updatePosition existing itype o1.order_side o1.executed_quantity execution_price with
  | .error e => .error e
  | .ok pos => .ok ⟨o1, wres.2, wres.1, pos⟩

/-- Embedding of `PaperTradingEngine.place_order` for a user whose
wallet row exists: fail when no market price is available; compute the
order value; reject an unaffordable BUY; reject an order value above the
position-size limit; create a PENDING order; execute immediately at the
current price for MARKET orders (an exception rolls the transaction
back, surfacing here as an error result), or mark the order OPEN
otherwise. -/
def place_order (w : Wallet) (current_price : Option ℚ)
    (existing : Option PaperPosition) (od : OrderCreate)
    (max_position_size : ℚ) : Except PlaceOrderErr ExecResult :=
  match current_price with
  | none => .error .priceUnavailable
  | some price =>
    let order_value := calculateOrderValue od price
    if od.order_side = .BUY ∧ ¬ w.can_afford order_value then
      .error .insufficientBalance
    else if order_value > max_position_size then
      .error .positionLimitExceeded
    else
      let order : PaperOrderState := ⟨od.order_side, od.quantity, none, 0, .PENDING⟩
      if od.order_type = .MARKET then
        match executeOrder w existing od.instrument_type order price with
        | .error e => .error (.pyErr e)
        | .ok r => .ok r
      else
        .ok ⟨{ order with status := .OPEN }, w, none, existing⟩

/-- A concrete long position of 10 units at average entry price 100 on
an INDEX instrument, with no P&L booked yet, as created by the engine
for a BUY fill of 10 @ 100; base input for concrete evaluations. -/
def basePosition : PaperPosition :=
  { instrument_type := .INDEX, quantity := 10, average_price := 100,
    ltp := none, current_price := some 100, realized_pnl := 0,
    unrealized_pnl := 0, pnl := 0, multiplier := 1,
    day_change := none, day_change_percentage := none }

/-! ## Theorems -/

/-- Helper: a single wallet operation with a non-negative amount keeps a
non-negative balance non-negative. -/
theorem applyWalletOp_nonneg (w : Wallet) (op : WalletOp)
    (hw : 0 ≤ w.balance) (ha : 0 ≤ op.amount) :
    0 ≤ (applyWalletOp w op).balance := by
  cases op with
  | debit a =>
    simp only [applyWalletOp, Wallet.deduct, Wallet.can_afford]
    split
    · next h =>
      simp only [decide_eq_true_eq] at h
      simpa using sub_nonneg.mpr h
    · exact hw
  | credit a =>
    simp only [applyWalletOp, Wallet.add]
    exact add_nonneg hw ha

/-- C4.  `Wallet.deduct` with `amount > balance` returns `False` and
leaves the balance unchanged; with `amount ≤ balance` it returns `True`
and subtracts exactly `amount`; and any sequence of debit/credit
operations (with non-negative amounts) starting from a non-negative
balance keeps the balance non-negative. -/
theorem claim_C4_no_negative_balance :
    (∀ (w : Wallet) (a : ℚ), w.balance < a → w.deduct a = (false, w)) ∧
    (∀ (w : Wallet) (a : ℚ), a ≤ w.balance →
      w.deduct a = (true, ⟨w.balance - a⟩)) ∧
    (∀ (w : Wallet) (ops : List WalletOp), 0 ≤ w.balance →
      (∀ op ∈ ops, 0 ≤ op.amount) → 0 ≤ (applyWalletOps w ops).balance) := by
  refine ⟨?_, ?_, ?_⟩
  · intro w a h
    simp [Wallet.deduct, Wallet.can_afford, not_le.mpr h]
  · intro w a h
    simp [Wallet.deduct, Wallet.can_afford, h]
  · intro w ops
    induction ops generalizing w with
    | nil => intro hw _; simpa [applyWalletOps] using hw
    | cons op rest ih =>
      intro hw hops
      have h1 : 0 ≤ (applyWalletOp w op).balance :=
        applyWalletOp_nonneg w op hw (hops op (by simp))
      have h2 := ih (applyWalletOp w op) h1 (fun o ho => hops o (by simp [ho]))
      simpa [applyWalletOps] using h2

/-- Witness for C4 at concrete inputs: a wallet holding 100 rejects a
debit of 150 unchanged, debits 40 exactly, and stays non-negative under
a debit/credit sequence that includes an unaffordable debit. -/
theorem claim_C4_witness :
    Wallet.deduct ⟨100⟩ 150 = (false, ⟨100⟩) ∧
    Wallet.deduct ⟨100⟩ 40 = (true, ⟨60⟩) ∧
    0 ≤ (applyWalletOps ⟨100⟩
      [.debit 40, .credit 10, .debit 200, .debit 70]).balance :=
  ⟨claim_C4_no_negative_balance.1 ⟨100⟩ 150 (by norm_num),
   (claim_C4_no_negative_balance.2.1 ⟨100⟩ 40 (by norm_num)).trans (by norm_num),
   claim_C4_no_negative_balance.2.2 ⟨100⟩ _ (by norm_num)
     (by intro op hop; fin_cases hop <;> simp [WalletOp.amount])⟩

/-- C1.  Flip scenario evaluated on the code: a long position of 10 @ 100
receiving a SELL fill of 15 @ 120 takes the reversal branch of
`_update_position`, which sets quantity to -5 and average_price to 120
but leaves `realized_pnl` at 0 — no realized P&L is booked for the 10
closed units (the claim requires (120 - 100) * 10 = 200) — and the update
then raises AttributeError recomputing unrealized P&L, so the mutation is
never committed. -/
theorem claim_C1_flip_books_no_realized_pnl :
    updatePositionFields basePosition .SELL 15 120 =
      some { basePosition with quantity := -5, average_price := 120 } ∧
    ({ basePosition with quantity := -5, average_price := 120 } : PaperPosition).realized_pnl = 0 ∧
    updatePosition (some basePosition) .INDEX .SELL 15 120 =
      .error .attributeError :=
  ⟨rfl, rfl, rfl⟩

/-- C2.  A BUY fill against a short position is handled by the
unconditional adding branch of `_update_position`: covering a short of
10 @ 100 with a BUY of 5 @ 90 books no realized P&L (the claim requires
(90 - 100) * 5 * 1 * (-1) = 50), corrupts the average price to 110, and
then raises AttributeError recomputing unrealized P&L. -/
theorem claim_C2_buy_cover_books_no_realized_pnl :
    updatePositionFields { basePosition with quantity := -10 } .BUY 5 90 =
      some { basePosition with quantity := -5, average_price := 110 } ∧
    ({ basePosition with quantity := -5, average_price := 110 } : PaperPosition).realized_pnl = 0 ∧
    updatePosition (some { basePosition with quantity := -10 }) .INDEX .BUY 5 90 =
      .error .attributeError := by
  refine ⟨?_, rfl, rfl⟩
  norm_num [updatePositionFields, basePosition]

/-- C3 counterexample.  The `close_tournament_position` endpoint is a
position-closing operation after which a position with quantity 0 is
still present in the book: it returns the stored row with its quantity
set to 0 instead of deleting it. -/
theorem claim_C3_counterexample :
    close_tournament_position (some basePosition) =
      .ok (some { basePosition with quantity := 0 }) ∧
    ({ basePosition with quantity := 0 } : PaperPosition).quantity = 0 :=
  ⟨rfl, rfl⟩

/-- C3 amended.  A SELL fill for exactly the position quantity deletes
the position (no quantity-0 row remains on this path), but
`close_tournament_position` keeps the row and merely sets its quantity
to 0, and a BUY fill covering a short exactly to 0 raises AttributeError
before committing (so it neither removes the position nor leaves a
zero-quantity one). -/
theorem claim_C3_zero_quantity_amended :
    (∀ (pos : PaperPosition) (itype : InstrumentType) (price : ℚ),
      updatePosition (some pos) itype .SELL pos.quantity price = .ok none) ∧
    (∀ pos : PaperPosition, close_tournament_position (some pos) =
      .ok (some { pos with quantity := 0 })) ∧
    updatePosition (some { basePosition with quantity := -10 }) .INDEX .BUY 10 100 =
      .error .attributeError := by
  refine ⟨?_, fun pos => rfl, rfl⟩
  intro pos itype price
  simp [updatePosition, updatePositionFields]

/-- C7 counterexample.  A SELL fill of 5 @ 120 adding to a short position
of 10 @ 100 (same sign as the fill) takes the reversal branch: the
quantity accumulates to -15 but the average price is reset to the fill
price 120 instead of the claimed weighted average
((-10) * 100 + (-5) * 120) / (-15) = 320/3. -/
theorem claim_C7_counterexample :
    updatePositionFields { basePosition with quantity := -10 } .SELL 5 120 =
      some { basePosition with quantity := -15, average_price := 120 } ∧
    (120 : ℚ) ≠ ((-10 : ℚ) * 100 + (-5 : ℚ) * 120) / ((-10 : ℚ) + -5) := by
  exact ⟨rfl, by norm_num⟩

/-- C7 amended.  For a BUY fill into an existing position the field
update accumulates the quantity and computes the weighted average entry
price (in particular 10 @ 100 plus BUY 10 @ 120 gives fields 20 @ 110);
a SELL fill whose quantity exceeds the stored quantity (which includes
every SELL adding to a short position) instead sets the quantity to
`old - fill` and resets the average price to the fill price; and
whenever the field update keeps a position and the execution price is
nonzero, `_update_position` then raises AttributeError recomputing
unrealized P&L, so the mutation is not committed. -/
theorem claim_C7_average_price_amended :
    (∀ (pos : PaperPosition) (q : ℤ) (price : ℚ), (pos.quantity : ℚ) + (q : ℚ) ≠ 0 →
      updatePositionFields pos .BUY q price =
        some { pos with quantity := pos.quantity + q, average_price := ((pos.quantity : ℚ) * pos.average_price + (q : ℚ) * price) / ((pos.quantity : ℚ) + (q : ℚ)) }) ∧
    (updatePositionFields basePosition .BUY 10 120 =
      some { basePosition with quantity := 20, average_price := 110 }) ∧
    (∀ (pos : PaperPosition) (q : ℤ) (price : ℚ), pos.quantity < q →
      updatePositionFields pos .SELL q price =
        some { pos with quantity := -(q - pos.quantity), average_price := price }) ∧
    (∀ (pos p1 : PaperPosition) (itype : InstrumentType) (side : OrderSide)
      (q : ℤ) (price : ℚ), price ≠ 0 →
      updatePositionFields pos side q price = some p1 →
      updatePosition (some pos) itype side q price = .error .attributeError) := by
  refine ⟨?_, ?_, ?_, ?_⟩
  · intro pos q price h
    have hz : pos.quantity + q ≠ 0 := by
      intro hzero
      apply h
      have : ((pos.quantity + q : ℤ) : ℚ) = 0 := by rw [hzero]; simp
      push_cast at this
      exact this
    simp only [updatePositionFields, hz, if_true, ne_eq, not_false_iff]
    congr 2
    push_cast
    ring_nf
  · norm_num [updatePositionFields, basePosition]
  · intro pos q price h
    simp [updatePositionFields, not_le.mpr h]
  · intro pos p1 itype side q price hp hfields
    simp only [updatePosition, hfields]
    have : pyTruthy (if pyTruthy p1.ltp then p1.ltp else some price) = true := by
      cases hl : pyTruthy p1.ltp with
      | true => simpa using hl
      | false => simp [pyTruthy, hp]
    simp [PaperPosition.calculate_unrealized_pnl, this]

/-- Witness for C7 amended: the crash clause applied to the concrete BUY
of 5 @ 110 into the base position. -/
theorem claim_C7_witness :
    updatePosition (some basePosition) .INDEX .BUY 5 110 =
      .error .attributeError :=
  claim_C7_average_price_amended.2.2.2 basePosition _ .INDEX .BUY 5 110
    (by norm_num) rfl

/-- C8.  Mark-to-market evaluated on the code: for a long option position
(OPTION_CE, quantity 1, average 100, lot multiplier 75) and mark price
120, `update_current_price` raises AttributeError instead of computing
the documented unrealized P&L (120 - 100) * 75 * 1 = 1500, because
`calculate_unrealized_pnl` accesses the nonexistent enum members
`InstrumentType.CE` and `InstrumentType.PE`. -/
theorem claim_C8_mark_to_market_raises :
    ({ basePosition with instrument_type := .OPTION_CE, quantity := 1, multiplier := 75 } : PaperPosition).update_current_price 120 none =
      .error .attributeError ∧
    documentedUnrealizedPnl .OPTION_CE 1 100 120 75 = 1500 := by
  refine ⟨rfl, ?_⟩
  norm_num [documentedUnrealizedPnl]

/-- C6.  A tick completes the in-progress candle exactly when its
computed interval start is strictly greater than the in-progress candle
interval start; and the concrete 6-tick stream spanning the three
60-second intervals [0, 60), [60, 120), [120, 180) produces exactly two
completed candles whose open/high/low/close are the first/max/min/last
prices of the ticks inside their interval, while the third interval
remains in progress. -/
theorem claim_C6_candle_intervals :
    (∀ (s : CandleBuilderState) (c : CandleData) (price : ℚ) (volume : ℤ) (ts : ℕ),
      s.current_candle = some c →
      ((processTick s price volume ts).1.isSome ↔
        getCandleTimestamp s.timeframe_seconds ts > c.timestamp)) ∧
    processTicks (candleBuilderInit 60)
      [⟨100, 10, 0⟩, ⟨105, 20, 10⟩, ⟨95, 30, 20⟩, ⟨110, 40, 65⟩, ⟨108, 50, 70⟩, ⟨120, 60, 125⟩] =
      ([⟨0, 100, 105, 95, 95, 20⟩, ⟨60000, 110, 110, 108, 108, 20⟩],
       ⟨60, some ⟨120000, 120, 120, 120, 120, 10⟩, some (120, 60)⟩) := by
  constructor
  · intro s c price volume ts hc
    simp only [processTick, hc]
    by_cases h : getCandleTimestamp s.timeframe_seconds ts > c.timestamp
    · simp [h]
    · simp [h]
  · rfl

/-- Witness for C6: the completion criterion applied to a concrete state
holding an in-progress candle for interval start 0 and a tick at
timestamp 65 with a 60-second timeframe. -/
theorem claim_C6_witness :
    ((processTick ⟨60, some ⟨0, 100, 100, 100, 100, 0⟩, some (100, 10)⟩ 105 20 65).1.isSome ↔
      getCandleTimestamp 60 65 > 0) :=
  claim_C6_candle_intervals.1 ⟨60, some ⟨0, 100, 100, 100, 100, 0⟩, some (100, 10)⟩
    ⟨0, 100, 100, 100, 100, 0⟩ 105 20 65 rfl

/-- Helper: with pairwise-distinct primary keys, the query returns the
unique matching row. -/
theorem findOrder_of_mem_unique {orders : List DBOrder} {o : DBOrder}
    {oid uid : ℕ} (hdist : orders.Pairwise (fun a b => a.id ≠ b.id))
    (hmem : o ∈ orders) (hid : o.id = oid) (huid : o.user_id = uid) :
    findOrder orders oid uid = some o := by
  induction orders with
  | nil => cases hmem
  | cons h rest ih =>
    rcases List.mem_cons.mp hmem with rfl | hmem2
    · simp [findOrder, List.find?_cons_of_pos, hid, huid]
    · have hne : h.id ≠ o.id := (List.pairwise_cons.mp hdist).1 o hmem2
      have hnp : ¬ (h.id = oid ∧ h.user_id = uid) := by
        rintro ⟨h1, _⟩
        exact hne (h1.trans hid.symm)
      have hrec := ih (List.pairwise_cons.mp hdist).2 hmem2
      simpa [findOrder, List.find?_cons_of_neg, hnp] using hrec

/-- Helper: after cancelling the found row, the same query returns that
row with status CANCELLED. -/
theorem findOrder_setCancelled {orders : List DBOrder} {o : DBOrder}
    {oid uid : ℕ} (hfind : findOrder orders oid uid = some o) :
    findOrder (setCancelled oid uid orders) oid uid =
      some { o with status := .CANCELLED } := by
  induction orders with
  | nil => simp [findOrder] at hfind
  | cons h rest ih =>
    by_cases hp : h.id = oid ∧ h.user_id = uid
    · have hfh : findOrder (h :: rest) oid uid = some h := by
        simp [findOrder, List.find?_cons_of_pos, hp]
      rw [hfh] at hfind
      cases hfind
      simp [setCancelled, hp, findOrder, List.find?_cons_of_pos]
    · have hstep : findOrder (h :: rest) oid uid = findOrder rest oid uid := by
        simp [findOrder, List.find?_cons_of_neg, hp]
      rw [hstep] at hfind
      have hrec := ih hfind
      simpa [setCancelled, hp, findOrder, List.find?_cons_of_neg] using hrec

/-- C9.  `cancel_order` returns `True` exactly when an order with the
given id belongs to the given user and is PENDING or OPEN; a `False`
result leaves the order table unchanged; and after a successful cancel,
a second identical call returns `False` and changes nothing (idempotent
cancel: true once, then false with no state change). -/
theorem claim_C9_idempotent_cancel (orders : List DBOrder) (oid uid : ℕ)
    (hdist : orders.Pairwise (fun a b => a.id ≠ b.id)) :
    ((cancel_order orders oid uid).1 = true ↔
      ∃ o ∈ orders, o.id = oid ∧ o.user_id = uid ∧
        (o.status = .PENDING ∨ o.status = .OPEN)) ∧
    ((cancel_order orders oid uid).1 = false →
      (cancel_order orders oid uid).2 = orders) ∧
    ((cancel_order orders oid uid).1 = true →
      cancel_order (cancel_order orders oid uid).2 oid uid =
        (false, (cancel_order orders oid uid).2)) := by
  refine ⟨⟨?_, ?_⟩, ?_, ?_⟩
  · intro htrue
    rcases hf : findOrder orders oid uid with _ | o
    · simp [cancel_order, hf] at htrue
    · have hmem := List.mem_of_find?_eq_some hf
      have hprop := List.find?_some hf
      simp only [decide_eq_true_eq] at hprop
      by_cases hs : o.status = .PENDING ∨ o.status = .OPEN
      · exact ⟨o, hmem, hprop.1, hprop.2, hs⟩
      · simp [cancel_order, hf, hs] at htrue
  · rintro ⟨o, hmem, hid, huid, hs⟩
    have hf := findOrder_of_mem_unique hdist hmem hid huid
    simp [cancel_order, hf, hs]
  · intro hfalse
    rcases hf : findOrder orders oid uid with _ | o
    · simp [cancel_order, hf]
    · by_cases hs : o.status = .PENDING ∨ o.status = .OPEN
      · simp [cancel_order, hf, hs] at hfalse
      · simp [cancel_order, hf, hs]
  · intro htrue
    rcases hf : findOrder orders oid uid with _ | o
    · simp [cancel_order, hf] at htrue
    · by_cases hs : o.status = .PENDING ∨ o.status = .OPEN
      · have h2 : (cancel_order orders oid uid).2 = setCancelled oid uid orders := by
          simp [cancel_order, hf, hs]
        have hf2 := findOrder_setCancelled hf
        have hsc : ¬ (({ o with status := .CANCELLED } : DBOrder).status = .PENDING ∨
            ({ o with status := .CANCELLED } : DBOrder).status = .OPEN) := by
          simp
        rw [h2]
        simp [cancel_order, hf2, hsc]
      · simp [cancel_order, hf, hs] at htrue

/-- Witness for C9: a table holding one OPEN order for user 7 is
cancelled once (returning true) and a second identical call returns
false without changing the table. -/
theorem claim_C9_witness :
    (cancel_order [⟨1, 7, OrderStatus.OPEN⟩] 1 7).1 = true ∧
    cancel_order (cancel_order [⟨1, 7, OrderStatus.OPEN⟩] 1 7).2 1 7 =
      (false, (cancel_order [⟨1, 7, OrderStatus.OPEN⟩] 1 7).2) := by
  have h := claim_C9_idempotent_cancel [⟨1, 7, OrderStatus.OPEN⟩] 1 7 (by simp)
  have h1 : (cancel_order [⟨1, 7, OrderStatus.OPEN⟩] 1 7).1 = true := rfl
  exact ⟨h1, h.2.2 h1⟩

/-- Helper: ranks are assigned positionally, so the first projections of
`assignRanksFrom n l` are exactly `n, n+1, ..., n + length - 1`. -/
theorem assignRanksFrom_map_fst (n : ℕ) (l : List Participant) :
    (assignRanksFrom n l).map Prod.fst = List.range' n l.length := by
  induction l generalizing n with
  | nil => rfl
  | cons p rest ih => simp [assignRanksFrom, List.range'_succ, ih]

/-- Helper: rank assignment keeps the participants in order. -/
theorem assignRanksFrom_map_snd (n : ℕ) (l : List Participant) :
    (assignRanksFrom n l).map Prod.snd = l := by
  induction l generalizing n with
  | nil => rfl
  | cons p rest ih => simp [assignRanksFrom, ih]

/-- Helper: the participant of every ranked entry comes from the input
list. -/
theorem mem_assignRanksFrom {n : ℕ} {l : List Participant}
    {x : ℕ × Participant} (h : x ∈ assignRanksFrom n l) : x.2 ∈ l := by
  induction l generalizing n with
  | nil => cases h
  | cons p rest ih =>
    rcases List.mem_cons.mp h with rfl | h2
    · simp
    · exact List.mem_cons.mpr (Or.inr (ih h2))

/-- Helper: a pairwise relation on the participants lifts to the ranked
list. -/
theorem assignRanksFrom_pairwise (n : ℕ) {l : List Participant}
    (h : l.Pairwise pnlDescOrder) :
    (assignRanksFrom n l).Pairwise (fun a b => pnlDescOrder a.2 b.2) := by
  induction l generalizing n with
  | nil => exact List.Pairwise.nil
  | cons p rest ih =>
    rcases List.pairwise_cons.mp h with ⟨hp, hrest⟩
    exact List.pairwise_cons.mpr
      ⟨fun b hb => hp b.2 (mem_assignRanksFrom hb), ih (n + 1) hrest⟩

/-- C5 counterexample.  Two participants with equal cumulative P&L, where
the participant who joined later (at time 5) is enumerated first by the
database: `update_rankings` gives rank 1 to the later joiner and rank 2
to the earlier joiner (time 3), so ties are not broken by earliest
`joined_at`. -/
theorem claim_C5_counterexample :
    update_rankings [⟨1, 10, 5⟩, ⟨2, 10, 3⟩] =
      [(1, ⟨1, 10, 5⟩), (2, ⟨2, 10, 3⟩)] ∧
    (⟨1, 10, 5⟩ : Participant).total_pnl = (⟨2, 10, 3⟩ : Participant).total_pnl ∧
    (⟨2, 10, 3⟩ : Participant).joined_at < (⟨1, 10, 5⟩ : Participant).joined_at := by
  refine ⟨rfl, rfl, ?_⟩
  norm_num

/-- C5 amended.  After `update_rankings` the assigned ranks are exactly
the dense sequence 1..N, the ranked entries are a permutation of the
participants, and cumulative P&L is non-increasing in rank order; ties
are left in the unspecified enumeration order of the participant query,
with no `joined_at` tie-break. -/
theorem claim_C5_rank_totality_amended :
    ∀ participants : List Participant,
      (update_rankings participants).map Prod.fst =
        List.range' 1 participants.length ∧
      List.Perm ((update_rankings participants).map Prod.snd) participants ∧
      (update_rankings participants).Pairwise
        (fun a b => b.2.total_pnl ≤ a.2.total_pnl) := by
  intro l
  refine ⟨?_, ?_, ?_⟩
  · rw [update_rankings, assignRanksFrom_map_fst]
    congr 1
    exact (List.perm_insertionSort pnlDescOrder l).length_eq
  · rw [update_rankings, assignRanksFrom_map_snd]
    exact List.perm_insertionSort pnlDescOrder l
  · exact assignRanksFrom_pairwise 1 (List.sorted_insertionSort pnlDescOrder l)

/-- C10.  For a MARKET BUY order, the affordability guard of
`place_order` and the `Wallet.deduct` inside `_execute_order` use the
same value `current_price * quantity` (a MARKET order never takes the
limit-price branch of `_calculate_order_value`), and the wallet is not
touched in between; hence whenever the guard passed, the discarded
deduct necessarily returns `True` and subtracts exactly that value, and
every MARKET BUY `place_order` call that completes (order EXECUTED) has
debited the wallet by exactly `executed_price * quantity`. -/
theorem claim_C10_market_buy_deduct_succeeds (w : Wallet) (price : ℚ)
    (existing : Option PaperPosition) (od : OrderCreate)
    (max_position_size : ℚ) (r : ExecResult)
    (hmkt : od.order_type = .MARKET) (hbuy : od.order_side = .BUY) :
    (w.can_afford (calculateOrderValue od price) = true →
      w.deduct (price * (od.quantity : ℚ)) =
        (true, ⟨w.balance - price * (od.quantity : ℚ)⟩)) ∧
    (place_order w (some price) existing od max_position_size = .ok r →
      r.deduct_result = some true ∧
      r.wallet = ⟨w.balance - price * (od.quantity : ℚ)⟩ ∧
      r.order.status = .EXECUTED ∧
      r.order.executed_price = some price ∧
      r.order.executed_quantity = od.quantity) := by
  have hv : calculateOrderValue od price = price * (od.quantity : ℚ) := by
    simp [calculateOrderValue, hmkt]
  constructor
  · intro hca
    rw [hv] at hca
    simp [Wallet.deduct, hca]
  · intro hok
    by_cases hca : w.can_afford (calculateOrderValue od price) = true
    · by_cases hlim : calculateOrderValue od price > max_position_size
      · simp [place_order, hbuy, hca, hlim] at hok
      · have hafford : w.can_afford (price * (od.quantity : ℚ)) = true := by
          rw [← hv]; exact hca
        have hded : w.deduct (price * (od.quantity : ℚ)) =
            (true, ⟨w.balance - price * (od.quantity : ℚ)⟩) := by
          simp [Wallet.deduct, hafford]
        rcases hup : updatePosition existing od.instrument_type OrderSide.BUY
            od.quantity price with e | pos
        · simp [place_order, hbuy, hca, hlim, hmkt, executeOrder, hup] at hok
        · have hpo : place_order w (some price) existing od max_position_size =
              .ok ⟨⟨OrderSide.BUY, od.quantity, some price, od.quantity, OrderStatus.EXECUTED⟩, ⟨w.balance - price * (od.quantity : ℚ)⟩, some true, pos⟩ := by
            simp [place_order, hbuy, hca, hlim, hmkt, executeOrder, hup, hded]
          rw [hpo] at hok
          injection hok with h
          subst h
          exact ⟨rfl, rfl, rfl, rfl, rfl⟩
    · simp [place_order, hbuy, hca] at hok

/-- Witness for C10: the concrete scenario of a 100000 wallet placing a
MARKET BUY of 10 units at oracle price 500: the guard passes and the
deduct succeeds, and the completed order has EXECUTED status with the
wallet debited to 95000. -/
theorem claim_C10_witness :
    Wallet.deduct ⟨100000⟩ (500 * ((10 : ℤ) : ℚ)) =
      (true, ⟨(100000 : ℚ) - 500 * ((10 : ℤ) : ℚ)⟩) ∧
    ((⟨⟨.BUY, 10, some 500, 10, .EXECUTED⟩, ⟨95000⟩, some true,
        some ⟨.INDEX, 10, 500, none, some 500, 0, 0, 0, 1, none, none⟩⟩ : ExecResult).deduct_result = some true ∧
      (⟨⟨.BUY, 10, some 500, 10, .EXECUTED⟩, ⟨95000⟩, some true,
        some ⟨.INDEX, 10, 500, none, some 500, 0, 0, 0, 1, none, none⟩⟩ : ExecResult).wallet =
        ⟨(100000 : ℚ) - 500 * ((10 : ℤ) : ℚ)⟩ ∧
      (⟨.BUY, 10, some 500, 10, .EXECUTED⟩ : PaperOrderState).status = .EXECUTED ∧
      (⟨.BUY, 10, some 500, 10, .EXECUTED⟩ : PaperOrderState).executed_price = some 500 ∧
      (⟨.BUY, 10, some 500, 10, .EXECUTED⟩ : PaperOrderState).executed_quantity = 10) :=
  have h := claim_C10_market_buy_deduct_succeeds ⟨100000⟩ 500 none
    ⟨.INDEX, .MARKET, .BUY, 10, none⟩ 50000
    ⟨⟨.BUY, 10, some 500, 10, .EXECUTED⟩, ⟨95000⟩, some true,
      some ⟨.INDEX, 10, 500, none, some 500, 0, 0, 0, 1, none, none⟩⟩ rfl rfl
  ⟨h.1 (by norm_num [Wallet.can_afford, calculateOrderValue, pyTruthy]),
   h.2 (by norm_num [place_order, executeOrder, updatePosition, calculateOrderValue,
     Wallet.can_afford, Wallet.deduct, pyTruthy])⟩
